import Mathlib

/-!
# Verification of the Somerset Lesson Generator against its specification

Shallow embedding of `lesson_generator_app.py`.  Python strings are
modelled as `List Char`; spreadsheet cells as `Cell` (text, integer, or the
pandas missing marker `NaN`); a pandas `DataFrame` as a `Table` of named
columns and rows of cells, each row aligned positionally with the column
list.
-/

set_option maxRecDepth 10000
set_option maxHeartbeats 2000000

/-- A Python string, modelled as its list of characters. -/
abbrev PyStr := List Char

/-- `str.strip()` : drop leading and trailing whitespace. -/
def pyStrip (s : PyStr) : PyStr :=
  ((s.dropWhile Char.isWhitespace).reverse.dropWhile Char.isWhitespace).reverse

/-- `text.replace("\n", ";")` : the replacement is character-for-character. -/
def replaceNl (s : PyStr) : PyStr :=
  s.map (fun c => if c = '\n' then ';' else c)

/-- Split a string at every character satisfying `p`; adjacent separators
give empty pieces, and the empty string yields one empty piece, as in
Python's `str.split` with an explicit separator. -/
def splitP (p : Char → Bool) : PyStr → List PyStr
  | [] => [[]]
  | c :: rest =>
    if p c then [] :: splitP p rest
    else (c :: (splitP p rest).headD []) :: (splitP p rest).tail

/-- `s.split(";")` -/
def splitSemi : PyStr → List PyStr := splitP (fun c => c = ';')

/-- `[x.strip() for x in text.replace("\n", ";").split(";") if x.strip()]` -/
def listItems (s : PyStr) : List PyStr :=
  ((splitSemi (replaceNl s)).map pyStrip).filter (fun x => x ≠ [])

/-- `"<br/>".join(pieces)` -/
def joinBr (l : List PyStr) : PyStr :=
  List.intercalate ("<br/>".data) l

/-- A spreadsheet cell: a text value, an integer value, or the pandas
missing marker (`NaN`). -/
inductive Cell where
  | str (s : PyStr)
  | num (n : Int)
  | na
deriving DecidableEq, Repr

/-- Python `str(...)` applied to a cell value (`NaN` prints as `nan`). -/
def pyStr : Cell → PyStr
  | Cell.str s => s
  | Cell.num n => (toString n).data
  | Cell.na => "nan".data

/-- `format_list(text, numbered)` from the source: returns `""` for
non-text or blank input, falls back to the input when no items tokenize,
otherwise joins the items with `<br/>`, numbered or bulleted. -/
def format_list (text : Cell) (numbered : Bool) : PyStr :=
  match text with
  | Cell.str s =>
    if pyStrip s = [] then []
    else if listItems s = [] then s
    else if numbered then
      joinBr ((listItems s).enum.map (fun p => (toString (p.1 + 1)).data ++ ". ".data ++ p.2))
    else
      joinBr ((listItems s).map (fun it => "• ".data ++ it))
  | _ => []

/-! ## Basic facts about the string helpers -/

lemma pyStrip_eq_nil_iff {s : PyStr} : pyStrip s = [] ↔ ∀ c ∈ s, c.isWhitespace := by
  unfold pyStrip
  rw [List.reverse_eq_nil_iff, List.dropWhile_eq_nil_iff]
  constructor
  · intro h c hc
    have hsplit := List.takeWhile_append_dropWhile Char.isWhitespace s
    rw [← hsplit] at hc
    rcases List.mem_append.mp hc with h1 | h2
    · exact List.mem_takeWhile_imp h1
    · exact h c (List.mem_reverse.mpr h2)
  · intro h c hc
    have hc' : c ∈ s.dropWhile Char.isWhitespace := List.mem_reverse.mp hc
    have hsplit := List.takeWhile_append_dropWhile Char.isWhitespace s
    exact h c (by rw [← hsplit]; exact List.mem_append.mpr (Or.inr hc'))

lemma splitP_ne_nil (p : Char → Bool) (l : PyStr) : splitP p l ≠ [] := by
  cases l with
  | nil => simp [splitP]
  | cons c rest => unfold splitP; split <;> simp

lemma splitP_chars {p : Char → Bool} {l piece : PyStr} {c : Char}
    (hp : piece ∈ splitP p l) (hc : c ∈ piece) : c ∈ l ∧ p c = false := by
  induction l generalizing piece with
  | nil =>
    simp [splitP] at hp
    subst hp
    simp at hc
  | cons a rest ih =>
    unfold splitP at hp
    by_cases hap : p a
    · rw [if_pos hap] at hp
      rcases List.mem_cons.mp hp with h | h
      · subst h; simp at hc
      · have := ih h hc
        exact ⟨List.mem_cons_of_mem _ this.1, this.2⟩
    · rw [if_neg hap] at hp
      cases hsp : splitP p rest with
      | nil => exact absurd hsp (splitP_ne_nil p rest)
      | cons h0 t0 =>
        rw [hsp] at hp
        simp only [List.headD_cons, List.tail_cons] at hp
        rcases List.mem_cons.mp hp with h | h
        · subst h
          rcases List.mem_cons.mp hc with h' | h'
          · subst h'
            exact ⟨List.mem_cons_self _ _, by simpa using hap⟩
          · have hmem : h0 ∈ splitP p rest := by rw [hsp]; exact List.mem_cons_self _ _
            have := ih hmem h'
            exact ⟨List.mem_cons_of_mem _ this.1, this.2⟩
        · have hmem : piece ∈ splitP p rest := by rw [hsp]; exact List.mem_cons_of_mem _ h
          have := ih hmem hc
          exact ⟨List.mem_cons_of_mem _ this.1, this.2⟩

lemma listItems_eq_nil_of_ws {s : PyStr} (h : ∀ c ∈ s, c.isWhitespace) :
    listItems s = [] := by
  unfold listItems
  rw [List.filter_eq_nil_iff]
  intro a ha
  simp only [List.mem_map] at ha
  obtain ⟨piece, hpiece, rfl⟩ := ha
  simp only [ne_eq, decide_not, Bool.not_eq_true', decide_eq_false_iff_not, not_not]
  apply pyStrip_eq_nil_iff.mpr
  intro c hc
  have hchar := splitP_chars hpiece hc
  obtain ⟨c0, hc0, hc0e⟩ := List.mem_map.mp hchar.1
  by_cases hnl : c0 = '\n'
  · exfalso
    rw [hnl] at hc0e
    simp at hc0e
    rw [← hc0e] at hchar
    simp at hchar
  · rw [if_neg hnl] at hc0e
    rw [← hc0e]
    exact h c0 hc0

lemma listItems_ne_nil_strip {s : PyStr} (h : listItems s ≠ []) : pyStrip s ≠ [] :=
  fun hs => h (listItems_eq_nil_of_ws (pyStrip_eq_nil_iff.mp hs))

/-! ## Claims C3, C5, C6 : `format_list` -/

/-- C6: for every text that splits (on newline or semicolon, after trimming
and dropping empties) into at least one non-empty item, `format_list` joins
the items with `<br/>`, prefixing each with its 1-based ordinal in numbered
mode and with a bullet glyph otherwise; in particular
`format_list("a;b;c", numbered=True) = "1. a<br/>2. b<br/>3. c"` and
`format_list("a\nb", numbered=False) = "• a<br/>• b"`. -/
theorem format_list_joins :
    (∀ (s : PyStr) (m : Bool), listItems s ≠ [] →
      format_list (Cell.str s) m =
        if m then
          joinBr ((listItems s).enum.map (fun p => (toString (p.1 + 1)).data ++ ". ".data ++ p.2))
        else
          joinBr ((listItems s).map (fun it => "• ".data ++ it)))
    ∧ format_list (Cell.str "a;b;c".data) true = "1. a<br/>2. b<br/>3. c".data
    ∧ format_list (Cell.str "a\nb".data) false = "• a<br/>• b".data := by
  refine ⟨?_, by decide, by decide⟩
  intro s m h
  simp only [format_list]
  rw [if_neg (listItems_ne_nil_strip h), if_neg h]

/-- Witness for C6 at the concrete input `"x;y"`. -/
theorem format_list_joins_witness :
    listItems "x;y".data ≠ [] ∧
      format_list (Cell.str "x;y".data) true =
        joinBr ((listItems "x;y".data).enum.map
          (fun p => (toString (p.1 + 1)).data ++ ". ".data ++ p.2)) := by
  refine ⟨by decide, ?_⟩
  have h := format_list_joins.1 "x;y".data true (by decide)
  simpa using h

/-- C3 counterexample: a whitespace-only input yields no items yet comes
back as `""` rather than unchanged, and `"no delimiters here"` tokenizes as
one item, so numbered mode returns `"1. no delimiters here"`, not the input
unchanged. -/
theorem format_list_fallback_cex :
    (listItems " ".data = [] ∧ format_list (Cell.str " ".data) true ≠ " ".data)
    ∧ format_list (Cell.str "no delimiters here".data) true
        ≠ "no delimiters here".data := by
  refine ⟨⟨by decide, by decide⟩, by decide⟩

/-- C3 amended: for every string that strips to non-empty but yields no
non-empty items, `format_list` returns the input unchanged; an empty or
whitespace-only input returns `""`; and `"no delimiters here"` is one item,
so `format_list("no delimiters here", numbered=True)` is
`"1. no delimiters here"`. -/
theorem format_list_fallback_amended :
    (∀ (s : PyStr) (m : Bool), pyStrip s ≠ [] → listItems s = [] →
      format_list (Cell.str s) m = s)
    ∧ (∀ (s : PyStr) (m : Bool), pyStrip s = [] → format_list (Cell.str s) m = [])
    ∧ format_list (Cell.str "no delimiters here".data) true
        = "1. no delimiters here".data := by
  refine ⟨?_, ?_, by decide⟩
  · intro s m hs hi
    simp only [format_list]
    rw [if_neg hs, if_pos hi]
  · intro s m hs
    simp only [format_list]
    rw [if_pos hs]

/-- Witness for the amended C3 at `";;;"` (fallback) and `" "` (blank). -/
theorem format_list_fallback_amended_witness :
    format_list (Cell.str ";;;".data) true = ";;;".data
    ∧ format_list (Cell.str " ".data) false = [] := by
  exact ⟨format_list_fallback_amended.1 ";;;".data true (by decide) (by decide),
    format_list_fallback_amended.2.1 " ".data false (by decide)⟩

/-- C5 counterexample: `format_list` is not idempotent on its own output:
re-applying it to `"1. a<br/>2. b"` (the numbered form of `"a;b"`) treats
the whole output as a single item and yields `"1. 1. a<br/>2. b"`. -/
theorem format_list_idem_cex :
    format_list (Cell.str "a;b".data) true = "1. a<br/>2. b".data
    ∧ format_list (Cell.str "1. a<br/>2. b".data) true = "1. 1. a<br/>2. b".data
    ∧ format_list (Cell.str (format_list (Cell.str "a;b".data) true)) true
        ≠ format_list (Cell.str "a;b".data) true := by
  refine ⟨by decide, by decide, by decide⟩

/-- C5 amended: `format_list` is idempotent exactly on the inputs that
produce no items — the blank path (result `""`) and the fallback path
(result unchanged); on any input with at least one item a second
application re-prefixes the whole output as a single item. -/
theorem format_list_idem_amended :
    ∀ (s : PyStr) (m : Bool), listItems s = [] →
      format_list (Cell.str (format_list (Cell.str s) m)) m
        = format_list (Cell.str s) m := by
  intro s m h
  by_cases hs : pyStrip s = []
  · have h1 : format_list (Cell.str s) m = [] := by
      simp only [format_list]; rw [if_pos hs]
    rw [h1]
    simp only [format_list]
    rw [if_pos (by decide : pyStrip ([] : PyStr) = [])]
  · have h1 : format_list (Cell.str s) m = s := by
      simp only [format_list]; rw [if_neg hs, if_pos h]
    rw [h1]
    exact h1

/-- Witness for the amended C5 at `";;;"`. -/
theorem format_list_idem_amended_witness :
    format_list (Cell.str (format_list (Cell.str ";;;".data) true)) true
      = format_list (Cell.str ";;;".data) true :=
  format_list_idem_amended ";;;".data true (by decide)

/-! ## The dataset model and `load_data` -/

/-- A pandas `DataFrame`: named columns and rows of cells, each row aligned
positionally with the column list. -/
structure Table where
  cols : List String
  rows : List (List Cell)
deriving DecidableEq, Repr

/-- Rows are rectangular: each row has one cell per column. -/
def Table.Rect (t : Table) : Prop :=
  ∀ r ∈ t.rows, r.length = t.cols.length

instance (t : Table) : Decidable t.Rect := by
  unfold Table.Rect; infer_instance

/-- Value of a row at a named column: the cell under the first column of
that name, `NaN` when the name is absent (or the row is too short). -/
def cellAt (cols : List String) (row : List Cell) (c : String) : Cell :=
  ((cols.zip row).find? (fun p => p.1 = c)).elim Cell.na (fun p => p.2)

/-- `str(c).strip()` on a column header. -/
def stripHdr (c : String) : String := String.mk (pyStrip c.data)

/-- `df[col] = v` for a constant `v`: overwrite the column when present,
otherwise append it, giving every row the value `v`. -/
def setConstCol (t : Table) (c : String) (v : Cell) : Table :=
  if t.cols.contains c then
    { t with rows := t.rows.map (fun r => (t.cols.zip r).map (fun p => if p.1 = c then v else p.2)) }
  else
    { cols := t.cols ++ [c], rows := t.rows.map (fun r => r ++ [v]) }

/-- `if col not in df.columns: df[col] = ""` -/
def addMissingCol (t : Table) (c : String) : Table :=
  if t.cols.contains c then t else setConstCol t c (Cell.str [])

/-- `df.columns = [str(c).strip() for c in df.columns]` -/
def stripCols (t : Table) : Table :=
  { t with cols := t.cols.map stripHdr }

/-- The three key fields forced present by `load_data`. -/
def addRequired (t : Table) : Table :=
  addMissingCol (addMissingCol (addMissingCol t "Lesson Summary") "Terms / Vocabulary")
    "GIG / Bell Ringer"

/-- `str.lower()` on one character (ASCII, all the headers involved). -/
def lowerChar (c : Char) : Char :=
  if 'A' ≤ c ∧ c ≤ 'Z' then Char.ofNat (c.toNat + 32) else c

/-- `str.lower()` -/
def pyLower (s : PyStr) : PyStr := s.map lowerChar

/-- Accepted week header spellings. -/
def weekNames : List PyStr := ["week".data, "week #".data, "week number".data]

/-- Accepted title header spellings. -/
def titleNames : List PyStr := ["lesson title".data, "title".data]

/-- `str(c).strip().lower() in ["week", "week #", "week number"]` -/
def isWeekHdr (c : String) : Bool := weekNames.contains (pyLower (pyStrip c.data))

/-- `str(c).strip().lower() in ["lesson title", "title"]` -/
def isTitleHdr (c : String) : Bool := titleNames.contains (pyLower (pyStrip c.data))

/-- Week auto-detection: first matching header, else synthesize `Week = 1`. -/
def resolveWeek (t : Table) : Table × String :=
  match t.cols.find? isWeekHdr with
  | some c => (t, c)
  | none => (setConstCol t "Week" (Cell.num 1), "Week")

/-- Title auto-detection: first matching header, else synthesize
`Lesson Title = "Untitled Lesson"`. -/
def resolveTitle (t : Table) : Table × String :=
  match t.cols.find? isTitleHdr with
  | some c => (t, c)
  | none => (setConstCol t "Lesson Title" (Cell.str "Untitled Lesson".data), "Lesson Title")

/-- `df.fillna("", inplace=True)` -/
def fillnaEmpty (t : Table) : Table :=
  { t with rows := t.rows.map (fun r => r.map (fun x => if x = Cell.na then Cell.str [] else x)) }

/-- `df = df.dropna(how="all")` : drop the rows whose every cell is `NaN`. -/
def dropAllNa (t : Table) : Table :=
  { t with rows := t.rows.filter (fun r => !(r.all (fun x => x == Cell.na))) }

/-- `load_data()` from the source (given the table read from the file):
strip headers, force the three key fields, auto-detect the week and title
columns, fill missing cells with `""`, then drop all-missing rows. -/
def load_data (t : Table) : Table × String × String :=
  let t2 := addRequired (stripCols t)
  let p3 := resolveWeek t2
  let p4 := resolveTitle p3.1
  (dropAllNa (fillnaEmpty p4.1), p3.2, p4.2)

/-! ## Structural lemmas about the pipeline -/

lemma cols_setConstCol (t : Table) (c : String) (v : Cell) :
    (setConstCol t c v).cols = t.cols ∨ (setConstCol t c v).cols = t.cols ++ [c] := by
  unfold setConstCol; split <;> simp

lemma mem_cols_setConstCol_self (t : Table) (c : String) (v : Cell) :
    c ∈ (setConstCol t c v).cols := by
  unfold setConstCol
  split
  · next h => simpa using h
  · simp

lemma mem_cols_setConstCol_of_mem {t : Table} {c' : String} (h : c' ∈ t.cols)
    (c : String) (v : Cell) : c' ∈ (setConstCol t c v).cols := by
  rcases cols_setConstCol t c v with he | he <;> rw [he] <;> simp [h]

lemma mem_cols_addMissingCol_self (t : Table) (c : String) :
    c ∈ (addMissingCol t c).cols := by
  unfold addMissingCol
  split
  · next h => simpa using h
  · exact mem_cols_setConstCol_self t c _

lemma mem_cols_addMissingCol_of_mem {t : Table} {c' : String} (h : c' ∈ t.cols)
    (c : String) : c' ∈ (addMissingCol t c).cols := by
  unfold addMissingCol
  split
  · exact h
  · exact mem_cols_setConstCol_of_mem h c _

lemma length_rows_setConstCol (t : Table) (c : String) (v : Cell) :
    (setConstCol t c v).rows.length = t.rows.length := by
  unfold setConstCol; split <;> simp

lemma length_rows_addMissingCol (t : Table) (c : String) :
    (addMissingCol t c).rows.length = t.rows.length := by
  unfold addMissingCol; split
  · rfl
  · exact length_rows_setConstCol t c _

lemma rect_setConstCol {t : Table} (h : t.Rect) (c : String) (v : Cell) :
    (setConstCol t c v).Rect := by
  unfold setConstCol Table.Rect
  split
  · intro r hr
    simp only [List.mem_map] at hr
    obtain ⟨r0, hr0, rfl⟩ := hr
    simp [List.length_zip, h r0 hr0]
  · intro r hr
    simp only [List.mem_map] at hr
    obtain ⟨r0, hr0, rfl⟩ := hr
    simp [h r0 hr0]

lemma rect_addMissingCol {t : Table} (h : t.Rect) (c : String) :
    (addMissingCol t c).Rect := by
  unfold addMissingCol; split
  · exact h
  · exact rect_setConstCol h c _

lemma rect_stripCols {t : Table} (h : t.Rect) : (stripCols t).Rect := by
  unfold stripCols Table.Rect
  intro r hr
  simpa using h r hr

lemma rect_addRequired {t : Table} (h : t.Rect) : (addRequired t).Rect :=
  rect_addMissingCol (rect_addMissingCol (rect_addMissingCol h _) _) _

lemma rect_fillnaEmpty {t : Table} (h : t.Rect) : (fillnaEmpty t).Rect := by
  unfold fillnaEmpty Table.Rect
  intro r hr
  simp only [List.mem_map] at hr
  obtain ⟨r0, hr0, rfl⟩ := hr
  simpa using h r0 hr0

lemma rect_resolveWeek {t : Table} (h : t.Rect) : (resolveWeek t).1.Rect := by
  unfold resolveWeek
  cases hf : t.cols.find? isWeekHdr with
  | some c => exact h
  | none => exact rect_setConstCol h _ _

lemma rect_resolveTitle {t : Table} (h : t.Rect) : (resolveTitle t).1.Rect := by
  unfold resolveTitle
  cases hf : t.cols.find? isTitleHdr with
  | some c => exact h
  | none => exact rect_setConstCol h _ _

lemma length_rows_resolveWeek (t : Table) :
    (resolveWeek t).1.rows.length = t.rows.length := by
  unfold resolveWeek
  cases hf : t.cols.find? isWeekHdr with
  | some c => rfl
  | none => exact length_rows_setConstCol t _ _

lemma length_rows_resolveTitle (t : Table) :
    (resolveTitle t).1.rows.length = t.rows.length := by
  unfold resolveTitle
  cases hf : t.cols.find? isTitleHdr with
  | some c => rfl
  | none => exact length_rows_setConstCol t _ _

lemma mem_cols_resolveWeek_of_mem {t : Table} {c' : String} (h : c' ∈ t.cols) :
    c' ∈ (resolveWeek t).1.cols := by
  unfold resolveWeek
  cases hf : t.cols.find? isWeekHdr with
  | some c => exact h
  | none => exact mem_cols_setConstCol_of_mem h _ _

lemma mem_cols_resolveTitle_of_mem {t : Table} {c' : String} (h : c' ∈ t.cols) :
    c' ∈ (resolveTitle t).1.cols := by
  unfold resolveTitle
  cases hf : t.cols.find? isTitleHdr with
  | some c => exact h
  | none => exact mem_cols_setConstCol_of_mem h _ _

lemma weekCol_mem_resolveWeek (t : Table) : (resolveWeek t).2 ∈ (resolveWeek t).1.cols := by
  unfold resolveWeek
  cases hf : t.cols.find? isWeekHdr with
  | some c => simpa using List.mem_of_find?_eq_some hf
  | none => simpa using mem_cols_setConstCol_self t "Week" (Cell.num 1)

lemma titleCol_mem_resolveTitle (t : Table) : (resolveTitle t).2 ∈ (resolveTitle t).1.cols := by
  unfold resolveTitle
  cases hf : t.cols.find? isTitleHdr with
  | some c => simpa using List.mem_of_find?_eq_some hf
  | none => simpa using mem_cols_setConstCol_self t "Lesson Title" _

lemma no_na_fillnaEmpty (t : Table) :
    ∀ r ∈ (fillnaEmpty t).rows, ∀ x ∈ r, x ≠ Cell.na := by
  intro r hr x hx
  unfold fillnaEmpty at hr
  simp only [List.mem_map] at hr
  obtain ⟨r0, hr0, rfl⟩ := hr
  simp only [List.mem_map] at hx
  obtain ⟨x0, hx0, rfl⟩ := hx
  by_cases h0 : x0 = Cell.na
  · simp [h0]
  · simp [h0]

lemma dropAllNa_eq_self {t : Table}
    (h : ∀ r ∈ t.rows, r ≠ [] ∧ ∀ x ∈ r, x ≠ Cell.na) : dropAllNa t = t := by
  unfold dropAllNa
  have : t.rows.filter (fun r => !(r.all (fun x => x == Cell.na))) = t.rows := by
    rw [List.filter_eq_self]
    intro r hr
    obtain ⟨hne, hnna⟩ := h r hr
    cases r with
    | nil => exact absurd rfl hne
    | cons y ys =>
      have hy : (y == Cell.na) = false :=
        beq_eq_false_iff_ne.mpr (hnna y (List.mem_cons_self _ _))
      simp [hy]
  rw [this]

lemma required_mem_addRequired (t : Table) :
    "Lesson Summary" ∈ (addRequired t).cols
    ∧ "Terms / Vocabulary" ∈ (addRequired t).cols
    ∧ "GIG / Bell Ringer" ∈ (addRequired t).cols := by
  unfold addRequired
  refine ⟨?_, ?_, mem_cols_addMissingCol_self _ _⟩
  · exact mem_cols_addMissingCol_of_mem
      (mem_cols_addMissingCol_of_mem (mem_cols_addMissingCol_self t _) _) _
  · exact mem_cols_addMissingCol_of_mem (mem_cols_addMissingCol_self _ _) _

lemma length_rows_addRequired (t : Table) :
    (addRequired t).rows.length = t.rows.length := by
  unfold addRequired
  rw [length_rows_addMissingCol, length_rows_addMissingCol, length_rows_addMissingCol]

/-! ## Claim C2 : no record is ever dropped -/

/-- C2 counterexample: a one-row table whose single cell is the missing
marker.  `load_data` keeps the row (with every cell now an empty string):
the all-missing record does appear in the returned dataset. -/
theorem load_data_allempty_row_cex :
    (load_data ⟨["A"], [[Cell.na]]⟩).1.rows.length = 1
    ∧ (load_data ⟨["A"], [[Cell.na]]⟩).1.rows.getD 0 []
        = [Cell.str [], Cell.str [], Cell.str [], Cell.str [],
           Cell.num 1, Cell.str "Untitled Lesson".data] := by
  exact ⟨by decide, by decide⟩

/-- C2 amended: `load_data` drops no record at all — the missing-marker
fill runs before the all-missing drop, so the drop never removes a row; a
row whose every cell was empty or missing is returned with every cell an
empty string. -/
theorem load_data_row_count (t : Table) (h : t.Rect) :
    (load_data t).1.rows.length = t.rows.length := by
  show (dropAllNa (fillnaEmpty
    (resolveTitle (resolveWeek (addRequired (stripCols t))).1).1)).rows.length
      = t.rows.length
  have hrect4 : (resolveTitle (resolveWeek (addRequired (stripCols t))).1).1.Rect :=
    rect_resolveTitle (rect_resolveWeek (rect_addRequired (rect_stripCols h)))
  have hmem : "GIG / Bell Ringer"
      ∈ (resolveTitle (resolveWeek (addRequired (stripCols t))).1).1.cols :=
    mem_cols_resolveTitle_of_mem
      (mem_cols_resolveWeek_of_mem (required_mem_addRequired _).2.2)
  have hdrop : dropAllNa (fillnaEmpty
      (resolveTitle (resolveWeek (addRequired (stripCols t))).1).1)
      = fillnaEmpty (resolveTitle (resolveWeek (addRequired (stripCols t))).1).1 := by
    apply dropAllNa_eq_self
    intro r hr
    refine ⟨?_, no_na_fillnaEmpty _ r hr⟩
    intro hnil
    have hlen := rect_fillnaEmpty hrect4 r hr
    rw [hnil] at hlen
    have hcols :
        (resolveTitle (resolveWeek (addRequired (stripCols t))).1).1.cols = [] := by
      have := hlen.symm
      simpa [fillnaEmpty, List.length_eq_zero] using this
    rw [hcols] at hmem
    simp at hmem
  rw [hdrop]
  simp only [fillnaEmpty, List.length_map]
  rw [length_rows_resolveTitle, length_rows_resolveWeek, length_rows_addRequired]
  rfl

/-- Witness for the amended C2 at a concrete two-row table. -/
theorem load_data_row_count_witness :
    (load_data ⟨["A"], [[Cell.na], [Cell.str "x".data]]⟩).1.rows.length = 2 := by
  have h := load_data_row_count ⟨["A"], [[Cell.na], [Cell.str "x".data]]⟩ (by decide)
  simpa using h

/-! ## Claim C4 : cells after `load_data` -/

/-- C4 counterexample: on a table with no week column, `load_data`
synthesizes the `Week` column holding the integer `1`, which is not a
string — so not every field value after `load_data` is a string. -/
theorem load_data_cell_kind_cex :
    cellAt (load_data ⟨["A"], [[Cell.str "x".data]]⟩).1.cols
        ((load_data ⟨["A"], [[Cell.str "x".data]]⟩).1.rows.getD 0 []) "Week"
      = Cell.num 1
    ∧ ∀ s : PyStr, Cell.num 1 ≠ Cell.str s := by
  refine ⟨by decide, ?_⟩
  intro s h
  exact Cell.noConfusion h

/-- C4 amended: after `load_data` no cell holds the missing marker, and
the returned week field, title field and the three required text fields
are all present among the columns; however a cell may be a non-string
(e.g. the synthesized `Week` value is the integer `1`). -/
theorem load_data_no_na_and_fields (t : Table) :
    (∀ r ∈ (load_data t).1.rows, ∀ x ∈ r, x ≠ Cell.na)
    ∧ (load_data t).2.1 ∈ (load_data t).1.cols
    ∧ (load_data t).2.2 ∈ (load_data t).1.cols
    ∧ "Lesson Summary" ∈ (load_data t).1.cols
    ∧ "Terms / Vocabulary" ∈ (load_data t).1.cols
    ∧ "GIG / Bell Ringer" ∈ (load_data t).1.cols := by
  refine ⟨?_, ?_, ?_, ?_, ?_, ?_⟩
  · intro r hr
    have hr' : r ∈ (fillnaEmpty
        (resolveTitle (resolveWeek (addRequired (stripCols t))).1).1).rows :=
      List.mem_of_mem_filter hr
    exact no_na_fillnaEmpty _ r hr'
  · show (resolveWeek (addRequired (stripCols t))).2
      ∈ (resolveTitle (resolveWeek (addRequired (stripCols t))).1).1.cols
    exact mem_cols_resolveTitle_of_mem (weekCol_mem_resolveWeek _)
  · show (resolveTitle (resolveWeek (addRequired (stripCols t))).1).2
      ∈ (resolveTitle (resolveWeek (addRequired (stripCols t))).1).1.cols
    exact titleCol_mem_resolveTitle _
  · exact mem_cols_resolveTitle_of_mem
      (mem_cols_resolveWeek_of_mem (required_mem_addRequired _).1)
  · exact mem_cols_resolveTitle_of_mem
      (mem_cols_resolveWeek_of_mem (required_mem_addRequired _).2.1)
  · exact mem_cols_resolveTitle_of_mem
      (mem_cols_resolveWeek_of_mem (required_mem_addRequired _).2.2)

/-- Witness for the amended C4 at a concrete table: the first returned
cell is not the missing marker, and the week column is present. -/
theorem load_data_no_na_and_fields_witness :
    ((load_data ⟨["A"], [[Cell.na]]⟩).1.rows.getD 0 []).getD 0 Cell.na ≠ Cell.na
    ∧ (load_data ⟨["A"], [[Cell.na]]⟩).2.1 ∈ (load_data ⟨["A"], [[Cell.na]]⟩).1.cols := by
  constructor
  · exact (load_data_no_na_and_fields ⟨["A"], [[Cell.na]]⟩).1
      ((load_data ⟨["A"], [[Cell.na]]⟩).1.rows.getD 0 []) (by decide)
      (((load_data ⟨["A"], [[Cell.na]]⟩).1.rows.getD 0 []).getD 0 Cell.na) (by decide)
  · exact (load_data_no_na_and_fields ⟨["A"], [[Cell.na]]⟩).2.1

/-! ## The document renderer (`generate_pdf`) -/

/-- `row.get(key, "")` on the record dict passed to `generate_pdf`. -/
def rowGet (row : List (String × Cell)) (k : String) : Cell :=
  ((row.find? (fun p => p.1 = k)).map (fun p => p.2)).getD (Cell.str [])

/-- `value.replace("\n", "<br/>")` -/
def replaceNlBr : PyStr → PyStr
  | [] => []
  | c :: rest => (if c = '\n' then "<br/>".data else [c]) ++ replaceNlBr rest

/-- `add_section(name, value, bullet, numbered)` from the source: `none`
when the section is omitted (non-text or blank value), otherwise the
heading together with the formatted body. -/
def add_section (name : String) (value : Cell) (bullet numbered : Bool) :
    Option (String × PyStr) :=
  match value with
  | Cell.str s =>
    if pyStrip s = [] then none
    else some (name,
      if bullet || numbered then format_list (Cell.str s) numbered
      else replaceNlBr s)
  | _ => none

/-- The NV Standards source value: an f-string concatenation, always text
containing a literal `<br/>`. -/
def nvStandardsValue (row : List (String × Cell)) : Cell :=
  Cell.str (pyStr (rowGet row "NV Standard Code") ++ "<br/>".data
    ++ pyStr (rowGet row "NV Standard Descriptor"))

/-- The optional sections of the rendered document, in source order: the
heading and formatted body of every section that is emitted. -/
def storySections (row : List (String × Cell)) : List (String × PyStr) :=
  [ add_section "NV Standards" (nvStandardsValue row) false false,
    add_section "Lesson Objective" (rowGet row "Lesson Objective(s)") false false,
    add_section "Essential Question" (rowGet row "Essential Question") false false,
    add_section "Lesson Summary" (rowGet row "Lesson Summary") false false,
    add_section "Instructional Strategies and Procedures"
      (rowGet row "Instructional Strategies and Procedures") false true,
    add_section "Accommodations and Modifications Strategies"
      (rowGet row "Accommodations and Modifications Strategies") true false,
    add_section "GIG / Bell Ringer" (rowGet row "GIG / Bell Ringer") false false,
    add_section "Closure / Exit Ticket" (rowGet row "Closure / Exit Ticket") false false,
    add_section "Materials / Resources" (rowGet row "Materials / Resources") true false,
    add_section "Terms / Vocabulary" (rowGet row "Terms / Vocabulary") true false,
    add_section "Learning Evidence" (rowGet row "Learning Evidence") false false,
    add_section "Reflection / Notes" (rowGet row "Reflection / Notes") false false
  ].reduceOption

/-! ## Claim C1 : sections of an all-empty record -/

/-- C1 counterexample: on a record whose every optional section field is
empty, the rendered document still contains one section heading — the NV
Standards value is an f-string that always contains a literal `<br/>`, so
it is never blank and its section is always emitted. -/
theorem render_empty_sections_cex :
    storySections [] = [("NV Standards", "<br/>".data)]
    ∧ (storySections []).length = 1 := by
  exact ⟨by decide, by decide⟩

/-- C1 amended: on a record whose every field is the empty string the
document carries exactly one section, `NV Standards` with body `<br/>`;
and `add_section` omits a section (no heading, no body) whenever its
source value is an empty/blank string or not text. -/
theorem render_empty_sections_amended :
    (∀ row : List (String × Cell), (∀ p ∈ row, p.2 = Cell.str []) →
      storySections row = [("NV Standards", "<br/>".data)])
    ∧ (∀ (name : String) (v : Cell) (b n : Bool),
        (∀ s, v = Cell.str s → pyStrip s = []) → add_section name v b n = none) := by
  constructor
  · intro row h
    have hGet : ∀ k, rowGet row k = Cell.str [] := by
      intro k
      unfold rowGet
      cases hf : row.find? (fun p => p.1 = k) with
      | none => rfl
      | some p =>
        have := h p (List.mem_of_find?_eq_some hf)
        simp [this]
    simp only [storySections, nvStandardsValue, hGet]
    decide
  · intro name v b n h
    cases v with
    | str s =>
      have hs := h s rfl
      simp [add_section, hs]
    | num z => rfl
    | na => rfl

/-- Witness for the amended C1 at a concrete all-empty record. -/
theorem render_empty_sections_amended_witness :
    storySections [("Essential Question", Cell.str [])]
      = [("NV Standards", "<br/>".data)]
    ∧ add_section "Lesson Summary" Cell.na false false = none := by
  constructor
  · exact render_empty_sections_amended.1 _ (by decide)
  · exact render_empty_sections_amended.2 "Lesson Summary" Cell.na false false
      (fun s h => Cell.noConfusion h)

/-! ## Timestamps and the derived filename -/

/-- A wall-clock timestamp, as the handlers read it from `datetime.now()`. -/
structure PyDateTime where
  year : Nat
  month : Nat
  mday : Nat
  hour : Nat
  minute : Nat
  sec : Nat
deriving DecidableEq, Repr

/-- Two digits, zero-padded (`%d`, `%H`, `%M`, `%S`). -/
def pad2 (n : Nat) : PyStr :=
  if n < 10 then '0' :: (toString n).data else (toString n).data

/-- `%b` : abbreviated month name. -/
def monthAbbrev : Nat → PyStr
  | 1 => "Jan".data
  | 2 => "Feb".data
  | 3 => "Mar".data
  | 4 => "Apr".data
  | 5 => "May".data
  | 6 => "Jun".data
  | 7 => "Jul".data
  | 8 => "Aug".data
  | 9 => "Sep".data
  | 10 => "Oct".data
  | 11 => "Nov".data
  | 12 => "Dec".data
  | _ => []

/-- `%B` : full month name. -/
def monthFull : Nat → PyStr
  | 1 => "January".data
  | 2 => "February".data
  | 3 => "March".data
  | 4 => "April".data
  | 5 => "May".data
  | 6 => "June".data
  | 7 => "July".data
  | 8 => "August".data
  | 9 => "September".data
  | 10 => "October".data
  | 11 => "November".data
  | 12 => "December".data
  | _ => []

/-- `now.strftime("%H%M%S")` -/
def hhmmss (t : PyDateTime) : PyStr := pad2 t.hour ++ pad2 t.minute ++ pad2 t.sec

/-- `now.strftime("%B %d, %Y")` -/
def dateLong (t : PyDateTime) : PyStr :=
  monthFull t.month ++ " ".data ++ pad2 t.mday ++ ", ".data ++ (toString t.year).data

/-- `str.split()` with no argument: split on whitespace runs, dropping
empties. -/
def pySplitWs (s : PyStr) : List PyStr :=
  (splitP Char.isWhitespace s).filter (fun x => x ≠ [])

/-- The output filename derived by `generate_pdf`:
`W{week}D{day}_LessonPlan_{month}{day-of-month}_{year}_{title}.pdf` with
the title's whitespace runs replaced by underscores and the date taken
from the generation timestamp. -/
def pdfFilename (row : List (String × Cell)) (weekCol titleCol : String)
    (now : PyDateTime) : PyStr :=
  "W".data ++ pyStrip (pyStr (rowGet row weekCol))
    ++ "D".data ++ pyStrip (pyStr (rowGet row "Day # (Continuous)"))
    ++ "_LessonPlan_".data ++ monthAbbrev now.month ++ pad2 now.mday
    ++ "_".data ++ (toString now.year).data
    ++ "_".data
    ++ List.intercalate "_".data (pySplitWs (pyStrip (pyStr (rowGet row titleCol))))
    ++ ".pdf".data

/-! ## Claim C9 : filename format and same-day stability -/

/-- C9: the derived filename follows
`W<week>D<day>_LessonPlan_<Mon><DD>_<YYYY>_<Title_With_Underscores>.pdf`
with month/day/year from the generation timestamp, and it depends on the
timestamp only through the calendar day — two calls within the same
calendar day on an identical record produce the same filename. -/
theorem generate_pdf_filename_stable :
    (∀ (row : List (String × Cell)) (w tc : String) (t1 t2 : PyDateTime),
      t1.year = t2.year → t1.month = t2.month → t1.mday = t2.mday →
      pdfFilename row w tc t1 = pdfFilename row w tc t2)
    ∧ pdfFilename
        [("Week", Cell.num 3), ("Day # (Continuous)", Cell.num 14),
         ("Lesson Title", Cell.str "My New Lesson".data)]
        "Week" "Lesson Title" ⟨2025, 10, 12, 9, 30, 5⟩
      = "W3D14_LessonPlan_Oct12_2025_My_New_Lesson.pdf".data := by
  constructor
  · intro row w tc t1 t2 hy hm hd
    unfold pdfFilename
    rw [hy, hm, hd]
  · decide

/-- Witness for C9: two generation timestamps on the same calendar day but
at different clock times give the same filename. -/
theorem generate_pdf_filename_stable_witness :
    pdfFilename [("Week", Cell.num 3)] "Week" "Lesson Title"
        ⟨2025, 10, 12, 8, 0, 0⟩
      = pdfFilename [("Week", Cell.num 3)] "Week" "Lesson Title"
        ⟨2025, 10, 12, 23, 59, 59⟩ :=
  generate_pdf_filename_stable.1 _ _ _ _ _ rfl rfl rfl

/-! ## The Add New Lesson handler -/

/-- Python dict update `d[k] = v`: overwrite the key in place when
present, otherwise append it. -/
def dictSet (d : List (String × Cell)) (k : String) (v : Cell) :
    List (String × Cell) :=
  if d.any (fun p => p.1 = k) then
    d.map (fun p => if p.1 = k then (k, v) else p)
  else d ++ [(k, v)]

/-- Dict lookup with the pandas alignment default: `NaN` when the key is
absent. -/
def dictGet (d : List (String × Cell)) (k : String) : Cell :=
  ((d.find? (fun p => p.1 = k)).map (fun p => p.2)).getD Cell.na

/-- `new_row` as built by the Add New Lesson handler: every known column
defaulted to `""`, then the week, date, title, status and (when the column
exists) continuous-day fields assigned. -/
def newLessonRow (cols : List String) (weekCol titleCol : String)
    (selWeek : Cell) (nrows : Nat) (now : PyDateTime) : List (String × Cell) :=
  let nr0 := cols.map (fun c => (c, Cell.str []))
  let nr1 := dictSet nr0 weekCol selWeek
  let nr2 := dictSet nr1 "Date" (Cell.str (dateLong now))
  let nr3 := dictSet nr2 titleCol (Cell.str ("New Lesson ".data ++ hhmmss now))
  let nr4 := dictSet nr3 "Lesson Status" (Cell.str "Planned".data)
  if cols.contains "Day # (Continuous)" then
    dictSet nr4 "Day # (Continuous)" (Cell.num (nrows + 1))
  else nr4

/-- `df = pd.concat([df, pd.DataFrame([new_row])], ignore_index=True)` :
columns of the new frame that the table lacks are appended; pre-existing
rows get the missing marker there, and the new row is aligned by column
name. -/
def addNewLesson (t : Table) (weekCol titleCol : String) (selWeek : Cell)
    (now : PyDateTime) : Table :=
  let nr := newLessonRow t.cols weekCol titleCol selWeek t.rows.length now
  let extra := (nr.map Prod.fst).filter (fun k => !(t.cols.contains k))
  { cols := t.cols ++ extra,
    rows := t.rows.map (fun r => r ++ extra.map (fun _ => Cell.na))
      ++ [(t.cols ++ extra).map (fun c => dictGet nr c)] }

/-! ## Dict and cell-lookup lemmas -/

lemma contains_iff {l : List String} {a : String} : l.contains a = true ↔ a ∈ l := by
  unfold List.contains
  exact List.elem_iff

lemma find?_overwrite (d : List (String × Cell)) (k : String) (v : Cell) :
    (d.map (fun p => if p.1 = k then (k, v) else p)).find? (fun p => p.1 = k)
      = if d.any (fun p => p.1 = k) then some (k, v) else none := by
  induction d with
  | nil => simp
  | cons p d ih =>
    by_cases hp : p.1 = k
    · simp [hp]
    · simp only [List.map_cons, List.any_cons]
      rw [if_neg hp, List.find?_cons_of_neg _ (by simpa using hp), ih]
      have hd : decide (p.1 = k) = false := decide_eq_false hp
      simp only [hd, Bool.false_or]

lemma dictGet_dictSet_self (d : List (String × Cell)) (k : String) (v : Cell) :
    dictGet (dictSet d k v) k = v := by
  unfold dictGet dictSet
  by_cases h : d.any (fun p => p.1 = k)
  · rw [if_pos h, find?_overwrite, if_pos h]
    rfl
  · rw [if_neg h, List.find?_append]
    have hnone : d.find? (fun p => p.1 = k) = none := by
      rw [List.find?_eq_none]
      intro x hx
      simp only [decide_eq_true_eq]
      intro he
      exact h (List.any_eq_true.mpr ⟨x, hx, by simp [he]⟩)
    rw [hnone]
    simp

lemma dictGet_dictSet_ne (d : List (String × Cell)) {k k' : String} (v : Cell)
    (h : k ≠ k') : dictGet (dictSet d k' v) k = dictGet d k := by
  unfold dictGet dictSet
  by_cases ha : d.any (fun p => p.1 = k')
  · rw [if_pos ha]
    congr 1
    clear ha
    induction d with
    | nil => rfl
    | cons p d ih =>
      by_cases hp : p.1 = k'
      · rw [List.map_cons, if_pos hp]
        rw [List.find?_cons_of_neg _ (by simpa using h.symm),
          List.find?_cons_of_neg _ (by simp [hp, h.symm]), ih]
      · rw [List.map_cons, if_neg hp]
        by_cases hk : p.1 = k
        · rw [List.find?_cons_of_pos _ (by simpa using hk),
            List.find?_cons_of_pos _ (by simpa using hk)]
        · rw [List.find?_cons_of_neg _ (by simpa using hk),
            List.find?_cons_of_neg _ (by simpa using hk), ih]
  · rw [if_neg ha, List.find?_append]
    have h2 : ([(k', v)] : List (String × Cell)).find? (fun p => p.1 = k) = none := by
      rw [List.find?_eq_none]
      intro x hx
      simp only [List.mem_singleton] at hx
      subst hx
      simpa using h.symm
    rw [h2, Option.or_none]

lemma keys_dictSet (d : List (String × Cell)) (k : String) (v : Cell) :
    (dictSet d k v).map Prod.fst = d.map Prod.fst
    ∨ (dictSet d k v).map Prod.fst = d.map Prod.fst ++ [k] := by
  unfold dictSet
  by_cases h : d.any (fun p => p.1 = k)
  · left
    rw [if_pos h, List.map_map]
    apply List.map_congr_left
    intro p _
    by_cases hp : p.1 = k
    · simp [hp]
    · simp [hp]
  · right
    rw [if_neg h]
    simp

lemma mem_keys_dictSet_self (d : List (String × Cell)) (k : String) (v : Cell) :
    k ∈ (dictSet d k v).map Prod.fst := by
  unfold dictSet
  by_cases h : d.any (fun p => p.1 = k)
  · rw [if_pos h]
    obtain ⟨p, hp, hpk⟩ := List.any_eq_true.mp h
    simp only [decide_eq_true_eq] at hpk
    refine List.mem_map.mpr ⟨(k, v), ?_, rfl⟩
    refine List.mem_map.mpr ⟨p, hp, ?_⟩
    rw [if_pos hpk]
  · rw [if_neg h]
    simp

lemma mem_keys_dictSet_of_mem {d : List (String × Cell)} {k' : String}
    (h : k' ∈ d.map Prod.fst) (k : String) (v : Cell) :
    k' ∈ (dictSet d k v).map Prod.fst := by
  rcases keys_dictSet d k v with he | he <;> rw [he] <;> simp [h]

lemma cellAt_append_not_mem {cols : List String} {r : List Cell} {c : String}
    (e : List String) (f : List Cell) (hc : c ∉ cols) (hl : cols.length = r.length) :
    cellAt (cols ++ e) (r ++ f) c = cellAt e f c := by
  unfold cellAt
  rw [List.zip_append hl, List.find?_append]
  have hnone : (cols.zip r).find? (fun p => p.1 = c) = none := by
    rw [List.find?_eq_none]
    intro x hx
    simp only [decide_eq_true_eq]
    intro he
    exact hc (he ▸ (List.of_mem_zip hx).1)
  rw [hnone, Option.none_or]

lemma cellAt_append_mem {cols : List String} {r : List Cell} {c : String}
    (e : List String) (f : List Cell) (hc : c ∈ cols) (hl : cols.length = r.length) :
    cellAt (cols ++ e) (r ++ f) c = cellAt cols r c := by
  unfold cellAt
  rw [List.zip_append hl, List.find?_append]
  have hsome : ((cols.zip r).find? (fun p => p.1 = c)).isSome := by
    rw [List.find?_isSome]
    have hfst : (cols.zip r).map Prod.fst = cols := List.map_fst_zip _ _ (le_of_eq hl)
    rw [← hfst] at hc
    obtain ⟨x, hx, hfx⟩ := List.mem_map.mp hc
    exact ⟨x, hx, by simp [hfx]⟩
  obtain ⟨x, hx⟩ := Option.isSome_iff_exists.mp hsome
  rw [hx]
  rfl

lemma find?_mem_self {l : List String} {c : String} (hc : c ∈ l) :
    l.find? (fun a => a = c) = some c := by
  induction l with
  | nil => simp at hc
  | cons a l ih =>
    by_cases ha : a = c
    · subst ha
      rw [List.find?_cons_of_pos _ (by simp)]
    · rw [List.find?_cons_of_neg _ (by simpa using ha)]
      exact ih ((List.mem_cons.mp hc).resolve_left (fun h => ha h.symm))

lemma cellAt_map_lookup {cols : List String} {g : String → Cell} {c : String}
    (hc : c ∈ cols) : cellAt cols (cols.map g) c = g c := by
  unfold cellAt
  have hz : cols.zip (cols.map g) = cols.map (fun a => (a, g a)) := by
    have h1 := List.zip_map' id g cols
    simpa using h1
  rw [hz, List.find?_map]
  have hcomp : ((fun p : String × Cell => decide (p.1 = c)) ∘ (fun a => (a, g a)))
      = (fun a => decide (a = c)) := rfl
  rw [hcomp, find?_mem_self hc]
  rfl

lemma pad2_len2 : ∀ n < 100, (pad2 n).length = 2 := by decide

lemma pad2_inj : ∀ m < 100, ∀ n < 100, pad2 m = pad2 n → m = n := by decide

lemma hhmmss_inj {t1 t2 : PyDateTime}
    (hh1 : t1.hour < 100) (hm1 : t1.minute < 100) (hs1 : t1.sec < 100)
    (hh2 : t2.hour < 100) (hm2 : t2.minute < 100) (hs2 : t2.sec < 100)
    (he : hhmmss t1 = hhmmss t2) :
    t1.hour = t2.hour ∧ t1.minute = t2.minute ∧ t1.sec = t2.sec := by
  unfold hhmmss at he
  rw [List.append_assoc, List.append_assoc] at he
  obtain ⟨hh, hrest⟩ := List.append_inj he
    (by rw [pad2_len2 _ hh1, pad2_len2 _ hh2])
  obtain ⟨hm, hs⟩ := List.append_inj hrest
    (by rw [pad2_len2 _ hm1, pad2_len2 _ hm2])
  exact ⟨pad2_inj _ hh1 _ hh2 hh, pad2_inj _ hm1 _ hm2 hm, pad2_inj _ hs1 _ hs2 hs⟩

lemma title_mem_keys_newLessonRow (cols : List String) (w tc : String)
    (sw : Cell) (n : Nat) (now : PyDateTime) :
    tc ∈ (newLessonRow cols w tc sw n now).map Prod.fst := by
  unfold newLessonRow
  split
  · exact mem_keys_dictSet_of_mem
      (mem_keys_dictSet_of_mem (mem_keys_dictSet_self _ _ _) _ _) _ _
  · exact mem_keys_dictSet_of_mem (mem_keys_dictSet_self _ _ _) _ _

lemma dictGet_newLessonRow_title (cols : List String) (w tc : String)
    (sw : Cell) (n : Nat) (now : PyDateTime)
    (h1 : tc ≠ "Lesson Status") (h2 : tc ≠ "Day # (Continuous)") :
    dictGet (newLessonRow cols w tc sw n now) tc
      = Cell.str ("New Lesson ".data ++ hhmmss now) := by
  unfold newLessonRow
  split
  · rw [dictGet_dictSet_ne _ _ h2, dictGet_dictSet_ne _ _ h1, dictGet_dictSet_self]
  · rw [dictGet_dictSet_ne _ _ h1, dictGet_dictSet_self]

/-! ## Claim C7 : adding a new record -/

/-- C7 counterexample: two Add-New-Lesson presses within the same clock
second (`datetime.now()` returning the same HHMMSS) produce two records
with the identical title `"New Lesson 101112"` — the title is not unique
within the session. -/
theorem add_new_lesson_unique_cex :
    (addNewLesson (addNewLesson ⟨["Week", "Lesson Title"],
          [[Cell.num 1, Cell.str "A".data]]⟩
        "Week" "Lesson Title" (Cell.num 1) ⟨2025, 10, 12, 10, 11, 12⟩)
      "Week" "Lesson Title" (Cell.num 1) ⟨2025, 10, 12, 10, 11, 12⟩).rows.length = 3
    ∧ cellAt (addNewLesson (addNewLesson ⟨["Week", "Lesson Title"],
          [[Cell.num 1, Cell.str "A".data]]⟩
        "Week" "Lesson Title" (Cell.num 1) ⟨2025, 10, 12, 10, 11, 12⟩)
      "Week" "Lesson Title" (Cell.num 1) ⟨2025, 10, 12, 10, 11, 12⟩).cols
        ((addNewLesson (addNewLesson ⟨["Week", "Lesson Title"],
            [[Cell.num 1, Cell.str "A".data]]⟩
          "Week" "Lesson Title" (Cell.num 1) ⟨2025, 10, 12, 10, 11, 12⟩)
        "Week" "Lesson Title" (Cell.num 1) ⟨2025, 10, 12, 10, 11, 12⟩).rows.getD 1 [])
        "Lesson Title"
      = Cell.str "New Lesson 101112".data
    ∧ cellAt (addNewLesson (addNewLesson ⟨["Week", "Lesson Title"],
          [[Cell.num 1, Cell.str "A".data]]⟩
        "Week" "Lesson Title" (Cell.num 1) ⟨2025, 10, 12, 10, 11, 12⟩)
      "Week" "Lesson Title" (Cell.num 1) ⟨2025, 10, 12, 10, 11, 12⟩).cols
        ((addNewLesson (addNewLesson ⟨["Week", "Lesson Title"],
            [[Cell.num 1, Cell.str "A".data]]⟩
          "Week" "Lesson Title" (Cell.num 1) ⟨2025, 10, 12, 10, 11, 12⟩)
        "Week" "Lesson Title" (Cell.num 1) ⟨2025, 10, 12, 10, 11, 12⟩).rows.getD 2 [])
        "Lesson Title"
      = Cell.str "New Lesson 101112".data := by
  refine ⟨by decide, by decide, by decide⟩

/-- C7 amended: adding a new record increases the record count by exactly
1, sets the new record's title to `"New Lesson "` followed by the current
time as HHMMSS — distinct across adds at distinct clock seconds, though
equal for two adds within the same second — and leaves every pre-existing
record's value at every pre-existing column unchanged. -/
theorem add_new_lesson_frame (t : Table) (w tc : String) (sw : Cell)
    (now : PyDateTime) (hrect : t.Rect)
    (htc1 : tc ≠ "Lesson Status") (htc2 : tc ≠ "Day # (Continuous)") :
    ((addNewLesson t w tc sw now).rows.length = t.rows.length + 1)
    ∧ cellAt (addNewLesson t w tc sw now).cols
        (((addNewLesson t w tc sw now).rows.getLast?).getD []) tc
      = Cell.str ("New Lesson ".data ++ hhmmss now)
    ∧ (∀ i < t.rows.length, ∀ c ∈ t.cols,
        cellAt (addNewLesson t w tc sw now).cols
          ((addNewLesson t w tc sw now).rows.getD i []) c
        = cellAt t.cols (t.rows.getD i []) c)
    ∧ (∀ t2 : PyDateTime, now.hour < 100 → now.minute < 100 → now.sec < 100 →
        t2.hour < 100 → t2.minute < 100 → t2.sec < 100 →
        (now.hour, now.minute, now.sec) ≠ (t2.hour, t2.minute, t2.sec) →
        ("New Lesson ".data ++ hhmmss now) ≠ ("New Lesson ".data ++ hhmmss t2)) := by
  refine ⟨?_, ?_, ?_, ?_⟩
  · simp [addNewLesson]
  · have hlast : ((addNewLesson t w tc sw now).rows.getLast?).getD []
        = ((addNewLesson t w tc sw now).cols).map
            (fun c => dictGet (newLessonRow t.cols w tc sw t.rows.length now) c) := by
      simp [addNewLesson, List.getLast?_concat]
    rw [hlast]
    have hmem : tc ∈ (addNewLesson t w tc sw now).cols := by
      show tc ∈ t.cols ++ _
      by_cases h : tc ∈ t.cols
      · exact List.mem_append.mpr (Or.inl h)
      · refine List.mem_append.mpr (Or.inr ?_)
        refine List.mem_filter.mpr ⟨title_mem_keys_newLessonRow _ _ _ _ _ _, ?_⟩
        simp only [Bool.not_eq_true']
        exact (Bool.not_eq_true _).mp (fun hcon => h (contains_iff.mp hcon))
    rw [cellAt_map_lookup hmem]
    exact dictGet_newLessonRow_title _ _ _ _ _ _ htc1 htc2
  · intro i hi c hc
    have hr : t.rows[i]? = some (t.rows.getD i []) := by
      rw [List.getElem?_eq_getElem hi, List.getD_eq_getElem?_getD,
        List.getElem?_eq_getElem hi]
      rfl
    have hmemr : t.rows.getD i [] ∈ t.rows := by
      rw [List.getD_eq_getElem?_getD, List.getElem?_eq_getElem hi]
      exact List.getElem_mem hi
    have hgd : (addNewLesson t w tc sw now).rows.getD i []
        = (t.rows.getD i [])
          ++ (((newLessonRow t.cols w tc sw t.rows.length now).map Prod.fst).filter
              (fun k => !(t.cols.contains k))).map (fun _ => Cell.na) := by
      show ((t.rows.map _) ++ [_]).getD i [] = _
      rw [List.getD_append _ _ _ i (by simpa using hi),
        List.getD_eq_getElem?_getD, List.getElem?_map, hr]
      rfl
    rw [hgd]
    exact cellAt_append_mem _ _ hc (hrect _ hmemr).symm
  · intro t2 hh1 hm1 hs1 hh2 hm2 hs2 hne heq
    have h2 := (List.append_right_inj _).mp heq
    have h3 := hhmmss_inj hh1 hm1 hs1 hh2 hm2 hs2 h2
    exact hne (by rw [h3.1, h3.2.1, h3.2.2])

/-- Witness for the amended C7 at a concrete one-row table. -/
theorem add_new_lesson_frame_witness :
    (addNewLesson ⟨["Week", "Lesson Title"], [[Cell.num 1, Cell.str "A".data]]⟩
        "Week" "Lesson Title" (Cell.num 1) ⟨2025, 10, 12, 10, 11, 12⟩).rows.length = 2
    ∧ cellAt (addNewLesson ⟨["Week", "Lesson Title"],
          [[Cell.num 1, Cell.str "A".data]]⟩
        "Week" "Lesson Title" (Cell.num 1) ⟨2025, 10, 12, 10, 11, 12⟩).cols
        (((addNewLesson ⟨["Week", "Lesson Title"],
            [[Cell.num 1, Cell.str "A".data]]⟩
          "Week" "Lesson Title" (Cell.num 1) ⟨2025, 10, 12, 10, 11, 12⟩).rows.getLast?).getD [])
        "Lesson Title"
      = Cell.str ("New Lesson ".data ++ hhmmss ⟨2025, 10, 12, 10, 11, 12⟩)
    ∧ ("New Lesson ".data ++ hhmmss ⟨2025, 10, 12, 10, 11, 12⟩)
      ≠ ("New Lesson ".data ++ hhmmss ⟨2025, 10, 12, 10, 11, 13⟩) := by
  have h := add_new_lesson_frame ⟨["Week", "Lesson Title"],
      [[Cell.num 1, Cell.str "A".data]]⟩
    "Week" "Lesson Title" (Cell.num 1) ⟨2025, 10, 12, 10, 11, 12⟩
    (by decide) (by decide) (by decide)
  exact ⟨h.1, h.2.1, h.2.2.2 ⟨2025, 10, 12, 10, 11, 13⟩ (by decide) (by decide)
    (by decide) (by decide) (by decide) (by decide) (by decide)⟩

/-! ## Claim C10 : columns created by the add handler -/

lemma date_mem_keys_newLessonRow (cols : List String) (w tc : String)
    (sw : Cell) (n : Nat) (now : PyDateTime) :
    "Date" ∈ (newLessonRow cols w tc sw n now).map Prod.fst := by
  unfold newLessonRow
  split
  · exact mem_keys_dictSet_of_mem (mem_keys_dictSet_of_mem
      (mem_keys_dictSet_of_mem (mem_keys_dictSet_self _ _ _) _ _) _ _) _ _
  · exact mem_keys_dictSet_of_mem
      (mem_keys_dictSet_of_mem (mem_keys_dictSet_self _ _ _) _ _) _ _

lemma status_mem_keys_newLessonRow (cols : List String) (w tc : String)
    (sw : Cell) (n : Nat) (now : PyDateTime) :
    "Lesson Status" ∈ (newLessonRow cols w tc sw n now).map Prod.fst := by
  unfold newLessonRow
  split
  · exact mem_keys_dictSet_of_mem (mem_keys_dictSet_self _ _ _) _ _
  · exact mem_keys_dictSet_self _ _ _

lemma add_new_lesson_new_col_na (t : Table) (w tc : String) (sw : Cell)
    (now : PyDateTime) (hrect : t.Rect) {k : String}
    (hk : k ∈ (newLessonRow t.cols w tc sw t.rows.length now).map Prod.fst)
    (hnot : k ∉ t.cols) :
    k ∈ (addNewLesson t w tc sw now).cols
    ∧ ∀ i < t.rows.length,
        cellAt (addNewLesson t w tc sw now).cols
          ((addNewLesson t w tc sw now).rows.getD i []) k = Cell.na := by
  have hextra : k ∈ ((newLessonRow t.cols w tc sw t.rows.length now).map Prod.fst).filter
      (fun k => !(t.cols.contains k)) := by
    refine List.mem_filter.mpr ⟨hk, ?_⟩
    simp only [Bool.not_eq_true']
    exact (Bool.not_eq_true _).mp (fun hcon => hnot (contains_iff.mp hcon))
  constructor
  · show k ∈ t.cols ++ _
    exact List.mem_append.mpr (Or.inr hextra)
  · intro i hi
    have hr : t.rows[i]? = some (t.rows.getD i []) := by
      rw [List.getElem?_eq_getElem hi, List.getD_eq_getElem?_getD,
        List.getElem?_eq_getElem hi]
      rfl
    have hmemr : t.rows.getD i [] ∈ t.rows := by
      rw [List.getD_eq_getElem?_getD, List.getElem?_eq_getElem hi]
      exact List.getElem_mem hi
    have hgd : (addNewLesson t w tc sw now).rows.getD i []
        = (t.rows.getD i [])
          ++ (((newLessonRow t.cols w tc sw t.rows.length now).map Prod.fst).filter
              (fun k => !(t.cols.contains k))).map (fun _ => Cell.na) := by
      show ((t.rows.map _) ++ [_]).getD i [] = _
      rw [List.getD_append _ _ _ i (by simpa using hi),
        List.getD_eq_getElem?_getD, List.getElem?_map, hr]
      rfl
    have hcols : (addNewLesson t w tc sw now).cols
        = t.cols ++ ((newLessonRow t.cols w tc sw t.rows.length now).map Prod.fst).filter
            (fun k => !(t.cols.contains k)) := rfl
    rw [hgd, hcols, cellAt_append_not_mem _ _ hnot (hrect _ hmemr).symm]
    exact cellAt_map_lookup hextra

/-- C10: when the table lacks a `Date` or `Lesson Status` column, the
Add-New-Lesson handler still assigns those fields on the new record, so
after the concat the dataset gains the missing column and every
pre-existing record holds the missing marker `NaN` — not an empty
string — in that newly created column. -/
theorem add_new_lesson_gains_cols (t : Table) (w tc : String) (sw : Cell)
    (now : PyDateTime) (hrect : t.Rect) :
    ("Date" ∉ t.cols →
      "Date" ∈ (addNewLesson t w tc sw now).cols
      ∧ ∀ i < t.rows.length,
          cellAt (addNewLesson t w tc sw now).cols
            ((addNewLesson t w tc sw now).rows.getD i []) "Date" = Cell.na)
    ∧ ("Lesson Status" ∉ t.cols →
      "Lesson Status" ∈ (addNewLesson t w tc sw now).cols
      ∧ ∀ i < t.rows.length,
          cellAt (addNewLesson t w tc sw now).cols
            ((addNewLesson t w tc sw now).rows.getD i []) "Lesson Status" = Cell.na)
    ∧ Cell.na ≠ Cell.str [] := by
  refine ⟨?_, ?_, by decide⟩
  · intro hnot
    exact add_new_lesson_new_col_na t w tc sw now hrect
      (date_mem_keys_newLessonRow _ _ _ _ _ _) hnot
  · intro hnot
    exact add_new_lesson_new_col_na t w tc sw now hrect
      (status_mem_keys_newLessonRow _ _ _ _ _ _) hnot

/-- Witness for C10 at a concrete table lacking both columns. -/
theorem add_new_lesson_gains_cols_witness :
    "Date" ∈ (addNewLesson ⟨["Week"], [[Cell.num 1]]⟩
        "Week" "Lesson Title" (Cell.num 1) ⟨2025, 10, 12, 10, 11, 12⟩).cols
    ∧ cellAt (addNewLesson ⟨["Week"], [[Cell.num 1]]⟩
        "Week" "Lesson Title" (Cell.num 1) ⟨2025, 10, 12, 10, 11, 12⟩).cols
        ((addNewLesson ⟨["Week"], [[Cell.num 1]]⟩
          "Week" "Lesson Title" (Cell.num 1) ⟨2025, 10, 12, 10, 11, 12⟩).rows.getD 0 [])
        "Date"
      = Cell.na
    ∧ "Lesson Status" ∈ (addNewLesson ⟨["Week"], [[Cell.num 1]]⟩
        "Week" "Lesson Title" (Cell.num 1) ⟨2025, 10, 12, 10, 11, 12⟩).cols := by
  have h := add_new_lesson_gains_cols ⟨["Week"], [[Cell.num 1]]⟩
    "Week" "Lesson Title" (Cell.num 1) ⟨2025, 10, 12, 10, 11, 12⟩ (by decide)
  have hd := h.1 (by decide)
  have hs := h.2.1 (by decide)
  exact ⟨hd.1, hd.2 0 (by decide), hs.1⟩

/-! ## Claim C8 : column auto-detection -/

lemma resolveWeek_eq_of_some {t : Table} {c : String}
    (hf : t.cols.find? isWeekHdr = some c) : resolveWeek t = (t, c) := by
  unfold resolveWeek
  rw [hf]

lemma resolveWeek_eq_of_none {t : Table}
    (hf : t.cols.find? isWeekHdr = none) :
    resolveWeek t = (setConstCol t "Week" (Cell.num 1), "Week") := by
  unfold resolveWeek
  rw [hf]

lemma resolveTitle_eq_of_some {t : Table} {c : String}
    (hf : t.cols.find? isTitleHdr = some c) : resolveTitle t = (t, c) := by
  unfold resolveTitle
  rw [hf]

lemma resolveTitle_eq_of_none {t : Table}
    (hf : t.cols.find? isTitleHdr = none) :
    resolveTitle t
      = (setConstCol t "Lesson Title" (Cell.str "Untitled Lesson".data),
         "Lesson Title") := by
  unfold resolveTitle
  rw [hf]

lemma setConstCol_not_mem {t : Table} {c : String} (h : c ∉ t.cols) (v : Cell) :
    setConstCol t c v
      = ⟨t.cols ++ [c], t.rows.map (fun r => r ++ [v])⟩ := by
  unfold setConstCol
  rw [if_neg (fun hcon => h (contains_iff.mp hcon))]

lemma cellAt_singleton (c : String) (v : Cell) : cellAt [c] [v] c = v := by
  unfold cellAt
  simp

lemma cellAt_map_cell {cols : List String} {r : List Cell} {c : String}
    (g : Cell → Cell) {v : Cell} (hv : v ≠ Cell.na) (h : cellAt cols r c = v) :
    cellAt cols (r.map g) c = g v := by
  unfold cellAt at h ⊢
  rw [List.zip_map_right, List.find?_map]
  have hcomp : ((fun p : String × Cell => decide (p.1 = c)) ∘ Prod.map id g)
      = (fun p : String × Cell => decide (p.1 = c)) := by
    funext p
    cases p
    rfl
  rw [hcomp]
  cases hf : (cols.zip r).find? (fun p => p.1 = c) with
  | none =>
    rw [hf] at h
    simp only [Option.elim_none] at h
    exact absurd h.symm hv
  | some x =>
    rw [hf] at h
    obtain ⟨a, b⟩ := x
    have hb : b = v := h
    simp [hb]

lemma cellAt_final {t4 : Table} {c : String} {v : Cell} (hv : v ≠ Cell.na)
    (h : ∀ r ∈ t4.rows, cellAt t4.cols r c = v) :
    ∀ r ∈ (dropAllNa (fillnaEmpty t4)).rows,
      cellAt (dropAllNa (fillnaEmpty t4)).cols r c = v := by
  intro r hr
  have hr5 : r ∈ (fillnaEmpty t4).rows := List.mem_of_mem_filter hr
  simp only [fillnaEmpty, List.mem_map] at hr5
  obtain ⟨r0, hr0, rfl⟩ := hr5
  show cellAt t4.cols (r0.map _) c = v
  rw [cellAt_map_cell _ hv (h r0 hr0)]
  exact if_neg hv

/-- C8: `load_data` resolves the week field by scanning the (stripped)
column headers case-insensitively for membership in
`{"week", "week #", "week number"}` and taking the first match; if none
matches it synthesizes a `Week` column holding `1` for every row; and
analogously for the title field over `{"lesson title", "title"}` with
default `"Untitled Lesson"`. -/
theorem load_data_autodetect (t : Table) (hrect : t.Rect) :
    (∀ c, (addRequired (stripCols t)).cols.find? isWeekHdr = some c →
      (load_data t).2.1 = c)
    ∧ ((addRequired (stripCols t)).cols.find? isWeekHdr = none →
      (load_data t).2.1 = "Week"
      ∧ "Week" ∈ (load_data t).1.cols
      ∧ ∀ r ∈ (load_data t).1.rows,
          cellAt (load_data t).1.cols r "Week" = Cell.num 1)
    ∧ (∀ c, (resolveWeek (addRequired (stripCols t))).1.cols.find? isTitleHdr
          = some c → (load_data t).2.2 = c)
    ∧ ((resolveWeek (addRequired (stripCols t))).1.cols.find? isTitleHdr = none →
      (load_data t).2.2 = "Lesson Title"
      ∧ "Lesson Title" ∈ (load_data t).1.cols
      ∧ ∀ r ∈ (load_data t).1.rows,
          cellAt (load_data t).1.cols r "Lesson Title"
            = Cell.str "Untitled Lesson".data) := by
  have rect2 : (addRequired (stripCols t)).Rect := rect_addRequired (rect_stripCols hrect)
  have rect3 : (resolveWeek (addRequired (stripCols t))).1.Rect := rect_resolveWeek rect2
  refine ⟨?_, ?_, ?_, ?_⟩
  · intro c hf
    show (resolveWeek (addRequired (stripCols t))).2 = c
    rw [resolveWeek_eq_of_some hf]
  · intro hf
    have hnotW : "Week" ∉ (addRequired (stripCols t)).cols := by
      intro hmem
      exact (List.find?_eq_none.mp hf "Week" hmem) (by decide)
    have hrw := resolveWeek_eq_of_none hf
    refine ⟨?_, ?_, ?_⟩
    · show (resolveWeek (addRequired (stripCols t))).2 = "Week"
      rw [hrw]
    · show "Week" ∈ (resolveTitle (resolveWeek (addRequired (stripCols t))).1).1.cols
      apply mem_cols_resolveTitle_of_mem
      rw [hrw]
      exact mem_cols_setConstCol_self _ _ _
    · have P3 : ∀ r ∈ (resolveWeek (addRequired (stripCols t))).1.rows,
          cellAt (resolveWeek (addRequired (stripCols t))).1.cols r "Week"
            = Cell.num 1 := by
        rw [hrw, setConstCol_not_mem hnotW]
        intro r hr
        simp only [List.mem_map] at hr
        obtain ⟨r0, hr0, rfl⟩ := hr
        rw [cellAt_append_not_mem _ _ hnotW (rect2 r0 hr0).symm]
        exact cellAt_singleton _ _
      have P4 : ∀ r ∈ (resolveTitle (resolveWeek (addRequired (stripCols t))).1).1.rows,
          cellAt (resolveTitle (resolveWeek (addRequired (stripCols t))).1).1.cols
            r "Week" = Cell.num 1 := by
        cases hft : (resolveWeek (addRequired (stripCols t))).1.cols.find? isTitleHdr with
        | some c2 =>
          rw [resolveTitle_eq_of_some hft]
          exact P3
        | none =>
          have hnotLT : "Lesson Title" ∉ (resolveWeek (addRequired (stripCols t))).1.cols := by
            intro hmem
            exact (List.find?_eq_none.mp hft "Lesson Title" hmem) (by decide)
          rw [resolveTitle_eq_of_none hft, setConstCol_not_mem hnotLT]
          intro r hr
          simp only [List.mem_map] at hr
          obtain ⟨r0, hr0, rfl⟩ := hr
          have hWmem : "Week" ∈ (resolveWeek (addRequired (stripCols t))).1.cols := by
            rw [hrw]
            exact mem_cols_setConstCol_self _ _ _
          rw [cellAt_append_mem _ _ hWmem (rect3 r0 hr0).symm]
          exact P3 r0 hr0
      exact cellAt_final (by simp) P4
  · intro c hf
    show (resolveTitle (resolveWeek (addRequired (stripCols t))).1).2 = c
    rw [resolveTitle_eq_of_some hf]
  · intro hf
    have hnotLT : "Lesson Title" ∉ (resolveWeek (addRequired (stripCols t))).1.cols := by
      intro hmem
      exact (List.find?_eq_none.mp hf "Lesson Title" hmem) (by decide)
    have hrt := resolveTitle_eq_of_none hf
    refine ⟨?_, ?_, ?_⟩
    · show (resolveTitle (resolveWeek (addRequired (stripCols t))).1).2 = "Lesson Title"
      rw [hrt]
    · show "Lesson Title"
        ∈ (resolveTitle (resolveWeek (addRequired (stripCols t))).1).1.cols
      rw [hrt]
      exact mem_cols_setConstCol_self _ _ _
    · have P4 : ∀ r ∈ (resolveTitle (resolveWeek (addRequired (stripCols t))).1).1.rows,
          cellAt (resolveTitle (resolveWeek (addRequired (stripCols t))).1).1.cols
            r "Lesson Title" = Cell.str "Untitled Lesson".data := by
        rw [hrt, setConstCol_not_mem hnotLT]
        intro r hr
        simp only [List.mem_map] at hr
        obtain ⟨r0, hr0, rfl⟩ := hr
        rw [cellAt_append_not_mem _ _ hnotLT (rect3 r0 hr0).symm]
        exact cellAt_singleton _ _
      exact cellAt_final (by simp) P4

/-- Witness for C8 at a concrete table having neither a week nor a title
header: both columns are synthesized with their documented defaults. -/
theorem load_data_autodetect_witness :
    (load_data ⟨["A"], [[Cell.str "x".data]]⟩).2.1 = "Week"
    ∧ cellAt (load_data ⟨["A"], [[Cell.str "x".data]]⟩).1.cols
        ((load_data ⟨["A"], [[Cell.str "x".data]]⟩).1.rows.getD 0 []) "Week"
      = Cell.num 1
    ∧ (load_data ⟨["A"], [[Cell.str "x".data]]⟩).2.2 = "Lesson Title"
    ∧ cellAt (load_data ⟨["A"], [[Cell.str "x".data]]⟩).1.cols
        ((load_data ⟨["A"], [[Cell.str "x".data]]⟩).1.rows.getD 0 []) "Lesson Title"
      = Cell.str "Untitled Lesson".data := by
  have h := load_data_autodetect ⟨["A"], [[Cell.str "x".data]]⟩ (by decide)
  have hw := h.2.1 (by decide)
  have ht := h.2.2.2 (by decide)
  refine ⟨hw.1, ?_, ht.1, ?_⟩
  · exact hw.2.2 _ (by decide)
  · exact ht.2.2 _ (by decide)
